import Mathlib

set_option maxRecDepth 10000

/-
Verification of the market-data ingestion and order-flow analytics pipeline.

The development shallow-embeds the binary packet decoders
(`parse_ltp_packet`, `parse_snapquote_packet`, `parse_best_5_data`,
`parse_full_snapquote`), the trade-direction classifier
(`classify_trade_direction`), the volume-delta engine (`process_tick`,
`get_current_state`, `reset_engine`) and the big-block alert detector
(`detect_big_block`) of the repository.

Conventions of the embedding:
  * a byte buffer is a `List Nat` of values 0..255 (readers reduce each
    byte mod 256, which is the identity on genuine bytes);
  * Python float arithmetic on prices is embedded as exact `Rat`
    arithmetic; `round` and the `.0f` format use round-half-to-even as
    Python does;
  * Python `int` is `Int`, `//` is `Int.fdiv`;
  * code that can raise (a failed UTF-8 decode, a missing dict key)
    is embedded as an `Option` result, `none` being the raise/`None` path;
  * wall-clock side channels (alert timestamps, CSV writers) carry no
    tick state and are omitted.
-/

namespace MarketData

/-! ## Byte-level primitives -/

/-- Python slice `data[a:b]`. -/
def pySlice (data : List Nat) (a b : Nat) : List Nat :=
  (data.drop a).take (b - a)

/-- Little-endian accumulation of a byte list (byte 0 least significant). -/
def leNat (bs : List Nat) : Nat :=
  bs.foldr (fun b acc => acc * 256 + b % 256) 0

/-- `struct.unpack('<H', ...)`: unsigned 16-bit little-endian. -/
def uint16le (bs : List Nat) : Nat :=
  leNat (bs.take 2)

/-- Two's complement interpretation of a 64-bit unsigned value. -/
def toSigned64 (u : Nat) : Int :=
  if u < 2 ^ 63 then (u : Int) else (u : Int) - 2 ^ 64

/-- `struct.unpack('<q', ...)`: signed 64-bit little-endian. -/
def sint64le (bs : List Nat) : Int :=
  toSigned64 (leNat (bs.take 8))

/-! ## UTF-8 decoding (`bytes.decode('utf-8')`)

Strict UTF-8: rejects continuation-less lead bytes, overlong encodings,
surrogate code points and values above U+10FFFF, exactly as Python's
`bytes.decode('utf-8')` does (which raises on violation; here: `none`). -/

def utf8Decode : List Nat → Option (List Char)
  | [] => some []
  | b0 :: rest =>
    let b := b0 % 256
    if b < 0x80 then
      (utf8Decode rest).map (fun cs => Char.ofNat b :: cs)
    else if b < 0xC2 then
      none
    else if b < 0xE0 then
      match rest with
      | c1 :: rest2 =>
        let c1 := c1 % 256
        if 0x80 ≤ c1 ∧ c1 ≤ 0xBF then
          (utf8Decode rest2).map
            (fun cs => Char.ofNat ((b - 0xC0) * 64 + (c1 - 0x80)) :: cs)
        else none
      | [] => none
    else if b < 0xF0 then
      match rest with
      | c1 :: c2 :: rest3 =>
        let c1 := c1 % 256
        let c2 := c2 % 256
        let lo1 := if b = 0xE0 then 0xA0 else 0x80
        let hi1 := if b = 0xED then 0x9F else 0xBF
        if lo1 ≤ c1 ∧ c1 ≤ hi1 ∧ 0x80 ≤ c2 ∧ c2 ≤ 0xBF then
          (utf8Decode rest3).map
            (fun cs =>
              Char.ofNat ((b - 0xE0) * 4096 + (c1 - 0x80) * 64 + (c2 - 0x80)) :: cs)
        else none
      | _ => none
    else if b < 0xF5 then
      match rest with
      | c1 :: c2 :: c3 :: rest4 =>
        let c1 := c1 % 256
        let c2 := c2 % 256
        let c3 := c3 % 256
        let lo1 := if b = 0xF0 then 0x90 else 0x80
        let hi1 := if b = 0xF4 then 0x8F else 0xBF
        if lo1 ≤ c1 ∧ c1 ≤ hi1 ∧ 0x80 ≤ c2 ∧ c2 ≤ 0xBF ∧ 0x80 ≤ c3 ∧ c3 ≤ 0xBF then
          (utf8Decode rest4).map
            (fun cs =>
              Char.ofNat
                ((b - 0xF0) * 262144 + (c1 - 0x80) * 4096 + (c2 - 0x80) * 64 +
                  (c3 - 0x80)) :: cs)
        else none
      | _ => none
    else none

/-- Python `str.strip('\x00')`: removes NUL characters from both ends. -/
def stripNul (cs : List Char) : List Char :=
  (((cs.dropWhile (fun c => c = '\x00')).reverse.dropWhile (fun c => c = '\x00'))).reverse

/-- The instrument-id field: `data[2:27].decode('utf-8').strip('\x00')`. -/
def decodeToken (data : List Nat) : Option String :=
  (utf8Decode (pySlice data 2 27)).map (fun cs => String.mk (stripNul cs))

/-! ## LTP decoder (`parse_ltp_packet`, nifty_option_chain.py) -/

/-- Result of `parse_ltp_packet`: the dict `{'token': ..., 'ltp': ...}`. -/
structure LtpTick where
  token : String
  ltp : Rat
deriving DecidableEq, Repr

namespace NiftyOptionChain

/-- `parse_ltp_packet(data)`: `None` when the frame is shorter than 51
bytes or the instrument-id bytes fail to decode; otherwise the token and
the price `struct.unpack('<q', data[43:51])[0] / 100`. -/
def parse_ltp_packet (data : List Nat) : Option LtpTick :=
  if data.length < 51 then none
  else
    match decodeToken data with
    | none => none
    | some tok => some ⟨tok, (sint64le (pySlice data 43 51) : Rat) / 100⟩

end NiftyOptionChain

/-! ## SnapQuote decoders

Two code-identical copies exist in the repository: `parse_best_5_data` /
`parse_snapquote_packet` in nifty_option_chain.py and `parse_best_5_data`
/ `parse_full_snapquote` in data_server.py.  Both are embedded, one per
namespace, each from its own source text. -/

/-- The four depth lists built by `parse_best_5_data`. -/
structure Best5 where
  bids : List Rat
  asks : List Rat
  bid_qty : List Int
  ask_qty : List Int
deriving DecidableEq, Repr

namespace NiftyOptionChain

/-- The loop of `parse_best_5_data` over the remaining iteration
indices: for `i in range(10)`, `offset = i * 20`; break when
`offset + 20 > len(data)`; read flag/qty/price and append to the bid
lists when `flag == 0`, to the ask lists otherwise (appending in
iteration order = consing onto the result of the remaining
iterations). -/
def parse_best_5_go (data : List Nat) : List Nat → Best5
  | [] => ⟨[], [], [], []⟩
  | i :: is =>
    if i * 20 + 20 > data.length then ⟨[], [], [], []⟩
    else
      let flag := uint16le (pySlice data (i * 20) (i * 20 + 2))
      let qty := sint64le (pySlice data (i * 20 + 2) (i * 20 + 10))
      let price := (sint64le (pySlice data (i * 20 + 10) (i * 20 + 18)) : Rat) / 100
      let rest := parse_best_5_go data is
      if flag = 0 then ⟨price :: rest.bids, rest.asks, qty :: rest.bid_qty, rest.ask_qty⟩
      else ⟨rest.bids, price :: rest.asks, rest.bid_qty, qty :: rest.ask_qty⟩

/-- `parse_best_5_data(data)` of nifty_option_chain.py. -/
def parse_best_5_data (data : List Nat) : Best5 :=
  parse_best_5_go data (List.range 10)

end NiftyOptionChain

/-- Result of the SnapQuote decoders: the returned dict. -/
structure SnapTick where
  token : String
  ltp : Rat
  ltq : Int
  atp : Rat
  volume : Int
  total_buy_qty : Int
  total_sell_qty : Int
  open_price : Rat
  high : Rat
  low : Rat
  close : Rat
  oi : Int
  best_bids : List Rat
  best_asks : List Rat
  bid_qty : List Int
  ask_qty : List Int
deriving DecidableEq, Repr

namespace NiftyOptionChain

/-- `parse_snapquote_packet(data)` of nifty_option_chain.py: `None` below
155 bytes or on an undecodable instrument id; depth parsed from
`data[147:347]` only when the frame has at least 347 bytes. -/
def parse_snapquote_packet (data : List Nat) : Option SnapTick :=
  if data.length < 155 then none
  else
    match decodeToken data with
    | none => none
    | some tok =>
      let best_5 : Best5 :=
        if 347 ≤ data.length then parse_best_5_data (pySlice data 147 347)
        else ⟨[], [], [], []⟩
      some
        { token := tok
          ltp := (sint64le (pySlice data 43 51) : Rat) / 100
          ltq := sint64le (pySlice data 51 59)
          atp := (sint64le (pySlice data 59 67) : Rat) / 100
          volume := sint64le (pySlice data 67 75)
          total_buy_qty := sint64le (pySlice data 75 83)
          total_sell_qty := sint64le (pySlice data 83 91)
          open_price := (sint64le (pySlice data 91 99) : Rat) / 100
          high := (sint64le (pySlice data 99 107) : Rat) / 100
          low := (sint64le (pySlice data 107 115) : Rat) / 100
          close := (sint64le (pySlice data 115 123) : Rat) / 100
          oi := sint64le (pySlice data 131 139)
          best_bids := best_5.bids
          best_asks := best_5.asks
          bid_qty := best_5.bid_qty
          ask_qty := best_5.ask_qty }

end NiftyOptionChain

namespace DataServer

/-- The loop of data_server.py's `parse_best_5_data` (code-identical to
the nifty_option_chain.py copy). -/
def parse_best_5_go (data : List Nat) : List Nat → Best5
  | [] => ⟨[], [], [], []⟩
  | i :: is =>
    if i * 20 + 20 > data.length then ⟨[], [], [], []⟩
    else
      let flag := uint16le (pySlice data (i * 20) (i * 20 + 2))
      let qty := sint64le (pySlice data (i * 20 + 2) (i * 20 + 10))
      let price := (sint64le (pySlice data (i * 20 + 10) (i * 20 + 18)) : Rat) / 100
      let rest := parse_best_5_go data is
      if flag = 0 then ⟨price :: rest.bids, rest.asks, qty :: rest.bid_qty, rest.ask_qty⟩
      else ⟨rest.bids, price :: rest.asks, rest.bid_qty, qty :: rest.ask_qty⟩

/-- `parse_best_5_data(data)` of data_server.py. -/
def parse_best_5_data (data : List Nat) : Best5 :=
  parse_best_5_go data (List.range 10)

/-- `parse_full_snapquote(data)` of data_server.py. -/
def parse_full_snapquote (data : List Nat) : Option SnapTick :=
  if data.length < 155 then none
  else
    match decodeToken data with
    | none => none
    | some tok =>
      let best_5 : Best5 :=
        if 347 ≤ data.length then parse_best_5_data (pySlice data 147 347)
        else ⟨[], [], [], []⟩
      some
        { token := tok
          ltp := (sint64le (pySlice data 43 51) : Rat) / 100
          ltq := sint64le (pySlice data 51 59)
          atp := (sint64le (pySlice data 59 67) : Rat) / 100
          volume := sint64le (pySlice data 67 75)
          total_buy_qty := sint64le (pySlice data 75 83)
          total_sell_qty := sint64le (pySlice data 83 91)
          open_price := (sint64le (pySlice data 91 99) : Rat) / 100
          high := (sint64le (pySlice data 99 107) : Rat) / 100
          low := (sint64le (pySlice data 107 115) : Rat) / 100
          close := (sint64le (pySlice data 115 123) : Rat) / 100
          oi := sint64le (pySlice data 131 139)
          best_bids := best_5.bids
          best_asks := best_5.asks
          bid_qty := best_5.bid_qty
          ask_qty := best_5.ask_qty }

end DataServer

/-! ## Volume-delta engine (volume_delta_engine.py)

The module-level mutable state (`cvd`, `total_buy_volume`,
`total_sell_volume`, `candle_data`, `current_minute`, `footprint_data`)
is embedded as an explicit `EngineState` record threaded through
`process_tick`.  `candle_data` is the dict keyed by minute string,
`footprint_data` the defaultdict keyed by rounded price with default
`(buy, sell) = (0, 0)`.  The CSV writers (`save_candle`,
`init_delta_files`) only perform file output and carry no engine state,
so they do not appear in the state. -/

/-- One candle dict of `candle_data`. -/
structure Candle where
  open_price : Rat
  high : Rat
  low : Rat
  close : Rat
  buy_vol : Int
  sell_vol : Int
  delta : Int
  cvd : Int
  tick_count : Nat
deriving DecidableEq, Repr

/-- The engine's module-level state. -/
structure EngineState where
  cvd : Int
  total_buy_volume : Int
  total_sell_volume : Int
  candle_data : String → Option Candle
  current_minute : String
  footprint_data : Int → Int × Int

/-- `reset_engine()`: zero counters, empty dicts, empty current minute. -/
def reset_engine : EngineState :=
  ⟨0, 0, 0, fun _ => none, "", fun _ => (0, 0)⟩

/-- Python `round` on a price: round half to even (`Rat.floor` is the
mathematical floor of a rational). -/
def pyRound (q : Rat) : Int :=
  let f := q.floor
  if q - f < 1 / 2 then f
  else if 1 / 2 < q - f then f + 1
  else if f % 2 = 0 then f else f + 1

/-- `timestamp[:5]`, the `"HH:MM"` candle bucket key: the first five
characters of the timestamp string. -/
def minuteKey (timestamp : String) : String :=
  String.mk (timestamp.data.take 5)

/-- First block of `process_tick`: update cumulative volumes and CVD. -/
def updateVolumes (direction : String) (quantity : Int) (st : EngineState) : EngineState :=
  if direction = "BUY" then
    { st with total_buy_volume := st.total_buy_volume + quantity,
              cvd := st.cvd + quantity }
  else
    { st with total_sell_volume := st.total_sell_volume + quantity,
              cvd := st.cvd - quantity }

/-- Second block of `process_tick`: update the footprint at the rounded
price level (`price_level = round(price)`). -/
def updateFootprint (direction : String) (quantity : Int) (price : Rat)
    (st : EngineState) : EngineState :=
  { st with
    footprint_data := fun p =>
      if p = pyRound price then
        if direction = "BUY" then
          ((st.footprint_data p).1 + quantity, (st.footprint_data p).2)
        else
          ((st.footprint_data p).1, (st.footprint_data p).2 + quantity)
      else st.footprint_data p }

/-- Third block of `process_tick`: when the minute key changed, save the
previous candle (`save_candle` only writes a CSV row — no engine state
changes) and open a fresh candle at the new key with
`open=high=low=close=price`, zero volumes and the running CVD. -/
def rollCandle (price : Rat) (mk : String) (st : EngineState) : EngineState :=
  if mk ≠ st.current_minute then
    { st with
      current_minute := mk,
      candle_data := fun k =>
        if k = mk then some ⟨price, price, price, price, 0, 0, 0, st.cvd, 0⟩
        else st.candle_data k }
  else st

/-- Fourth block of `process_tick`: update the current candle in place;
`none` is the Python `KeyError` on a missing candle entry (only possible
for the empty minute key straight after reset). -/
def updateCandle (direction : String) (quantity : Int) (price : Rat)
    (mk : String) (st : EngineState) : Option EngineState :=
  match st.candle_data mk with
  | none => none
  | some candle =>
    let candle1 :=
      { candle with
        high := max candle.high price,
        low := min candle.low price,
        close := price,
        tick_count := candle.tick_count + 1 }
    let candle2 :=
      if direction = "BUY" then { candle1 with buy_vol := candle1.buy_vol + quantity }
      else { candle1 with sell_vol := candle1.sell_vol + quantity }
    let candle3 :=
      { candle2 with delta := candle2.buy_vol - candle2.sell_vol, cvd := st.cvd }
    some
      { st with
        candle_data := fun k => if k = mk then some candle3 else st.candle_data k }

/-- `process_tick(direction, quantity, price, timestamp)`: the four
blocks of the source in order (`minute_key = timestamp[:5]`). -/
def process_tick (direction : String) (quantity : Int) (price : Rat)
    (timestamp : String) (st : EngineState) : Option EngineState :=
  updateCandle direction quantity price (minuteKey timestamp)
    (rollCandle price (minuteKey timestamp)
      (updateFootprint direction quantity price
        (updateVolumes direction quantity st)))

/-- The dict returned by `get_current_state()`; `current_candle` is
`none` for the Python `{}` returned before any tick. -/
structure EngineView where
  cvd : Int
  total_buy_volume : Int
  total_sell_volume : Int
  net_delta : Int
  current_candle : Option Candle
  imbalance_ratio : Rat

/-- `get_current_state()`. -/
def get_current_state (st : EngineState) : EngineView :=
  { cvd := st.cvd
    total_buy_volume := st.total_buy_volume
    total_sell_volume := st.total_sell_volume
    net_delta := st.total_buy_volume - st.total_sell_volume
    current_candle := st.candle_data st.current_minute
    imbalance_ratio :=
      if 0 < st.total_sell_volume then
        (st.total_buy_volume : Rat) / (st.total_sell_volume : Rat)
      else 0 }

/-- One tick as fed to `process_tick` by the collector loop. -/
structure EngineTick where
  direction : String
  quantity : Int
  price : Rat
  timestamp : String
deriving DecidableEq, Repr

/-- Process a list of ticks in order, starting from `st`. -/
def processList (ticks : List EngineTick) (st : EngineState) : Option EngineState :=
  match ticks with
  | [] => some st
  | t :: rest =>
    match process_tick t.direction t.quantity t.price t.timestamp st with
    | none => none
    | some st1 => processList rest st1

/-- Total quantity of the `"BUY"` ticks of a list. -/
def buyQty (ticks : List EngineTick) : Int :=
  ((ticks.filter (fun t => t.direction = "BUY")).map (fun t => t.quantity)).sum

/-- Total quantity of the `"SELL"` ticks of a list. -/
def sellQty (ticks : List EngineTick) : Int :=
  ((ticks.filter (fun t => t.direction = "SELL")).map (fun t => t.quantity)).sum

/-! ## Trade classifier (order_flow_collector.py) -/

/-- `classify_trade_direction(ltp, best_bids, best_asks, prev_ltp)`; the
module-level `last_direction` is passed and returned explicitly (the
returned value is also the new `last_direction`). -/
def classify_trade_direction (ltp : Rat) (best_bids best_asks : List Rat)
    (prev_ltp : Rat) (last_direction : String) : String :=
  let best_bid := best_bids.headD 0
  let best_ask := best_asks.headD 0
  if 0 < best_ask ∧ best_ask ≤ ltp then "BUY"
  else if 0 < best_bid ∧ ltp ≤ best_bid then "SELL"
  else if 0 < prev_ltp then
    if prev_ltp < ltp then "BUY"
    else if ltp < prev_ltp then "SELL"
    else last_direction
  else last_direction

/-! ## Big-block alert detector (order_flow_analyzer.py)

`recent_alerts` is the module-level `deque(maxlen=100)` of dedup-key
strings, embedded as an explicit list (front = oldest).  The `Alert`
record drops the wall-clock `timestamp` field, which is taken from
`datetime.now()` and touches no analytics state. -/

def NIFTY_LOT_SIZE : Int := 75

def BIG_BLOCK_THRESHOLD : Int := 50 * NIFTY_LOT_SIZE

/-- An `Alert` as built by the detectors (minus wall-clock timestamp). -/
structure OFAlert where
  alert_type : String
  direction : String
  price : Rat
  details : String
  severity : String
deriving DecidableEq, Repr

/-- Python `f"{q:.0f}"`: round half to even, with `"-0"` for negative
values rounding to zero. -/
def fmtDot0f (q : Rat) : String :=
  if pyRound q = 0 ∧ q < 0 then "-0" else toString (pyRound q)

/-- The dedup key `f"BIG_BLOCK_{direction}_{price:.0f}"`. -/
def big_block_key (direction : String) (price : Rat) : String :=
  "BIG_BLOCK_" ++ direction ++ "_" ++ fmtDot0f price

/-- `deque(maxlen=100).append`: drop the oldest entry when full. -/
def dequeAppend (recent : List String) (key : String) : List String :=
  (if recent.length = 100 then recent.drop 1 else recent) ++ [key]

/-- `detect_big_block(quantity, direction, price)`: state-passing version
returning the produced alert (or `none`) and the updated
`recent_alerts`. -/
def detect_big_block (quantity : Int) (direction : String) (price : Rat)
    (recent : List String) : Option OFAlert × List String :=
  if BIG_BLOCK_THRESHOLD ≤ quantity then
    let lots := Int.fdiv quantity NIFTY_LOT_SIZE
    let severity := if 100 ≤ lots then "CRITICAL" else "WARNING"
    let alert : OFAlert :=
      ⟨"BIG_BLOCK", direction, price,
        direction ++ " " ++ toString lots ++ " lots (" ++ toString quantity ++ " qty)",
        severity⟩
    let key := big_block_key direction price
    if key ∈ recent then (none, recent)
    else (some alert, dequeAppend recent key)
  else (none, recent)

/-! ## Depth-block characterization

`DepthEntry` is one 20-byte record of the depth block as the loop reads
it; `depthEntriesFrom` lists the records the loop visits (with the same
break condition), in frame order. -/

/-- One 20-byte depth record: flag (0 = bid), quantity, scaled price. -/
structure DepthEntry where
  flag : Nat
  qty : Int
  price : Rat
deriving DecidableEq, Repr

/-- The depth record read at iteration `i`. -/
def readDepthEntry (data : List Nat) (i : Nat) : DepthEntry :=
  ⟨uint16le (pySlice data (i * 20) (i * 20 + 2)),
    sint64le (pySlice data (i * 20 + 2) (i * 20 + 10)),
    (sint64le (pySlice data (i * 20 + 10) (i * 20 + 18)) : Rat) / 100⟩

/-- The depth records visited over the remaining iteration indices, in
frame order (same break condition as the loop). -/
def depthEntriesFrom (data : List Nat) : List Nat → List DepthEntry
  | [] => []
  | i :: is =>
    if i * 20 + 20 > data.length then []
    else readDepthEntry data i :: depthEntriesFrom data is

/-- All depth records of a depth block, in frame order. -/
def depthEntries (data : List Nat) : List DepthEntry :=
  depthEntriesFrom data (List.range 10)

/-- Dispatch a record list into the four side-separated lists, keeping
frame order within each side. -/
def splitDepth : List DepthEntry → Best5
  | [] => ⟨[], [], [], []⟩
  | e :: rest =>
    let r := splitDepth rest
    if e.flag = 0 then ⟨e.price :: r.bids, r.asks, e.qty :: r.bid_qty, r.ask_qty⟩
    else ⟨r.bids, e.price :: r.asks, r.bid_qty, e.qty :: r.ask_qty⟩

theorem splitDepth_bids (l : List DepthEntry) :
    (splitDepth l).bids = (l.filter (fun e => e.flag = 0)).map DepthEntry.price := by
  induction l with
  | nil => rfl
  | cons e rest ih =>
    by_cases h : e.flag = 0 <;> simp [splitDepth, List.filter_cons, h, ih]

theorem splitDepth_asks (l : List DepthEntry) :
    (splitDepth l).asks = (l.filter (fun e => ¬ e.flag = 0)).map DepthEntry.price := by
  induction l with
  | nil => rfl
  | cons e rest ih =>
    by_cases h : e.flag = 0 <;> simp [splitDepth, List.filter_cons, h, ih]

theorem splitDepth_bid_qty (l : List DepthEntry) :
    (splitDepth l).bid_qty = (l.filter (fun e => e.flag = 0)).map DepthEntry.qty := by
  induction l with
  | nil => rfl
  | cons e rest ih =>
    by_cases h : e.flag = 0 <;> simp [splitDepth, List.filter_cons, h, ih]

theorem splitDepth_ask_qty (l : List DepthEntry) :
    (splitDepth l).ask_qty = (l.filter (fun e => ¬ e.flag = 0)).map DepthEntry.qty := by
  induction l with
  | nil => rfl
  | cons e rest ih =>
    by_cases h : e.flag = 0 <;> simp [splitDepth, List.filter_cons, h, ih]

theorem parse_best_5_go_eq_splitDepth (d : List Nat) (idx : List Nat) :
    NiftyOptionChain.parse_best_5_go d idx = splitDepth (depthEntriesFrom d idx) := by
  induction idx with
  | nil => rfl
  | cons i is ih =>
    unfold NiftyOptionChain.parse_best_5_go depthEntriesFrom
    by_cases hlen : i * 20 + 20 > d.length
    · simp [hlen, splitDepth]
    · simp [hlen, splitDepth, ih, readDepthEntry]

theorem parse_best_5_data_eq_splitDepth (d : List Nat) :
    NiftyOptionChain.parse_best_5_data d = splitDepth (depthEntries d) :=
  parse_best_5_go_eq_splitDepth d (List.range 10)

theorem depthEntriesFrom_length (d : List Nat) (hd : d.length = 200) :
    ∀ idx : List Nat, (∀ i ∈ idx, i < 10) →
      (depthEntriesFrom d idx).length = idx.length := by
  intro idx
  induction idx with
  | nil => intro _; rfl
  | cons i is ih =>
    intro hidx
    have hi : i < 10 := hidx i (List.mem_cons_self i is)
    have hlen : ¬ i * 20 + 20 > d.length := by omega
    unfold depthEntriesFrom
    simp only [hlen, if_false, List.length_cons]
    rw [ih (fun j hj => hidx j (List.mem_cons_of_mem i hj))]

theorem depthEntries_length (d : List Nat) (hd : d.length = 200) :
    (depthEntries d).length = 10 := by
  unfold depthEntries
  rw [depthEntriesFrom_length d hd (List.range 10) (fun i hi => List.mem_range.mp hi)]
  simp

/-! ## Engine lemmas -/

theorem updateVolumes_cvd (d : String) (q : Int) (st : EngineState) :
    (updateVolumes d q st).cvd = st.cvd + (if d = "BUY" then q else -q) := by
  by_cases hd : d = "BUY" <;> simp [updateVolumes, hd, sub_eq_add_neg]

theorem updateVolumes_buy (d : String) (q : Int) (st : EngineState) :
    (updateVolumes d q st).total_buy_volume =
      st.total_buy_volume + (if d = "BUY" then q else 0) := by
  by_cases hd : d = "BUY" <;> simp [updateVolumes, hd]

theorem updateVolumes_sell (d : String) (q : Int) (st : EngineState) :
    (updateVolumes d q st).total_sell_volume =
      st.total_sell_volume + (if d = "BUY" then 0 else q) := by
  by_cases hd : d = "BUY" <;> simp [updateVolumes, hd]

theorem updateVolumes_candle (d : String) (q : Int) (st : EngineState) :
    (updateVolumes d q st).candle_data = st.candle_data := by
  by_cases hd : d = "BUY" <;> simp [updateVolumes, hd]

theorem rollCandle_cvd (p : Rat) (mk : String) (st : EngineState) :
    (rollCandle p mk st).cvd = st.cvd := by
  unfold rollCandle
  split <;> rfl

theorem rollCandle_buy (p : Rat) (mk : String) (st : EngineState) :
    (rollCandle p mk st).total_buy_volume = st.total_buy_volume := by
  unfold rollCandle
  split <;> rfl

theorem rollCandle_sell (p : Rat) (mk : String) (st : EngineState) :
    (rollCandle p mk st).total_sell_volume = st.total_sell_volume := by
  unfold rollCandle
  split <;> rfl

theorem rollCandle_minute (p : Rat) (mk : String) (st : EngineState) :
    (rollCandle p mk st).current_minute = mk := by
  unfold rollCandle
  by_cases h : mk ≠ st.current_minute
  · rw [if_pos h]
  · rw [if_neg h]
    exact (not_ne_iff.mp h).symm

theorem rollCandle_candle_apart (p : Rat) (mk : String) (st : EngineState)
    (k : String) (hk : k ≠ mk) :
    (rollCandle p mk st).candle_data k = st.candle_data k := by
  unfold rollCandle
  split
  · dsimp only
    rw [if_neg hk]
  · rfl

theorem updateCandle_some {d : String} {q : Int} {p : Rat} {mk : String}
    {st st' : EngineState} (h : updateCandle d q p mk st = some st') :
    st'.cvd = st.cvd ∧
    st'.total_buy_volume = st.total_buy_volume ∧
    st'.total_sell_volume = st.total_sell_volume ∧
    st'.current_minute = st.current_minute ∧
    (∀ k, k ≠ mk → st'.candle_data k = st.candle_data k) ∧
    (st'.candle_data mk).isSome := by
  unfold updateCandle at h
  rcases hc : st.candle_data mk with _ | c
  · rw [hc] at h
    exact absurd h (by simp)
  · rw [hc] at h
    dsimp only at h
    rcases Option.some.inj h with rfl
    refine ⟨rfl, rfl, rfl, rfl, fun k hk => ?_, ?_⟩
    · dsimp only
      rw [if_neg hk]
    · dsimp only
      rw [if_pos rfl]
      rfl

theorem process_tick_some {d : String} {q : Int} {p : Rat} {ts : String}
    {st st' : EngineState} (h : process_tick d q p ts st = some st') :
    st'.cvd = st.cvd + (if d = "BUY" then q else -q) ∧
    st'.total_buy_volume = st.total_buy_volume + (if d = "BUY" then q else 0) ∧
    st'.total_sell_volume = st.total_sell_volume + (if d = "BUY" then 0 else q) ∧
    st'.current_minute = minuteKey ts ∧
    (∀ k, k ≠ minuteKey ts → st'.candle_data k = st.candle_data k) ∧
    (st'.candle_data (minuteKey ts)).isSome := by
  unfold process_tick at h
  obtain ⟨hcvd, hbuy, hsell, hcur, hapart, hsome⟩ := updateCandle_some h
  refine ⟨?_, ?_, ?_, ?_, fun k hk => ?_, hsome⟩
  · rw [hcvd, rollCandle_cvd]
    exact updateVolumes_cvd d q st
  · rw [hbuy, rollCandle_buy]
    exact updateVolumes_buy d q st
  · rw [hsell, rollCandle_sell]
    exact updateVolumes_sell d q st
  · rw [hcur, rollCandle_minute]
  · rw [hapart k hk, rollCandle_candle_apart _ _ _ k hk]
    exact congrFun (updateVolumes_candle d q st) k

theorem processList_cons_eq (t : EngineTick) (rest : List EngineTick) (st : EngineState) :
    processList (t :: rest) st =
      match process_tick t.direction t.quantity t.price t.timestamp st with
      | none => none
      | some st1 => processList rest st1 := by
  rw [processList]

theorem processList_append {l1 l2 : List EngineTick} {st stf : EngineState} :
    processList (l1 ++ l2) st = some stf ↔
      ∃ mid, processList l1 st = some mid ∧ processList l2 mid = some stf := by
  induction l1 generalizing st with
  | nil => simp [processList]
  | cons t l1 ih =>
    rw [List.cons_append, processList_cons_eq, processList_cons_eq]
    cases hpt : process_tick t.direction t.quantity t.price t.timestamp st with
    | none => simp
    | some st1 => simpa using ih

theorem processList_cvd {l : List EngineTick} {st st' : EngineState}
    (h : processList l st = some st') :
    st'.cvd = st.cvd +
      (l.map (fun t => if t.direction = "BUY" then t.quantity else -t.quantity)).sum := by
  induction l generalizing st with
  | nil =>
    rcases Option.some.inj h with rfl
    simp
  | cons t rest ih =>
    rw [processList_cons_eq] at h
    cases hpt : process_tick t.direction t.quantity t.price t.timestamp st with
    | none =>
      rw [hpt] at h
      exact absurd h (by simp)
    | some st1 =>
      rw [hpt] at h
      dsimp only at h
      rw [ih h, (process_tick_some hpt).1]
      simp
      ring

theorem processList_candle_apart {l : List EngineTick} {st st' : EngineState} {k : String}
    (h : processList l st = some st')
    (hk : ∀ u ∈ l, minuteKey u.timestamp ≠ k) :
    st'.candle_data k = st.candle_data k := by
  induction l generalizing st with
  | nil =>
    rcases Option.some.inj h with rfl
    rfl
  | cons t rest ih =>
    rw [processList_cons_eq] at h
    cases hpt : process_tick t.direction t.quantity t.price t.timestamp st with
    | none =>
      rw [hpt] at h
      exact absurd h (by simp)
    | some st1 =>
      rw [hpt] at h
      dsimp only at h
      rw [ih h (fun u hu => hk u (List.mem_cons_of_mem t hu))]
      exact (process_tick_some hpt).2.2.2.2.1 k
        (fun he => hk t (List.mem_cons_self t rest) he.symm)

theorem processList_getLast_candle {l : List EngineTick} {st st' : EngineState}
    (h : processList l st = some st') (hl : l ≠ []) :
    (st'.candle_data (minuteKey (l.getLast hl).timestamp)).isSome := by
  rcases List.eq_nil_or_concat l with rfl | ⟨l', t, rfl⟩
  · exact absurd rfl hl
  · rw [List.concat_eq_append] at h
    obtain ⟨mid, _, hlast⟩ := processList_append.mp h
    rw [processList_cons_eq] at hlast
    cases hpt : process_tick t.direction t.quantity t.price t.timestamp mid with
    | none =>
      rw [hpt] at hlast
      exact absurd hlast (by simp)
    | some st1 =>
      rw [hpt] at hlast
      dsimp only at hlast
      rcases Option.some.inj hlast with rfl
      simp only [List.concat_eq_append, List.getLast_append]
      exact (process_tick_some hpt).2.2.2.2.2

theorem buy_ne_sell : ("BUY" : String) ≠ "SELL" := by decide

theorem signed_sum_eq (ticks : List EngineTick)
    (hdir : ∀ t ∈ ticks, t.direction = "BUY" ∨ t.direction = "SELL") :
    (ticks.map (fun t => if t.direction = "BUY" then t.quantity else -t.quantity)).sum =
      buyQty ticks - sellQty ticks := by
  induction ticks with
  | nil => simp [buyQty, sellQty]
  | cons t rest ih =>
    have hrest := ih (fun u hu => hdir u (List.mem_cons_of_mem t hu))
    have hb : buyQty (t :: rest) =
        (if t.direction = "BUY" then t.quantity else 0) + buyQty rest := by
      by_cases h : t.direction = "BUY" <;>
        simp [buyQty, List.filter_cons, h]
    have hs : sellQty (t :: rest) =
        (if t.direction = "SELL" then t.quantity else 0) + sellQty rest := by
      by_cases h : t.direction = "SELL" <;>
        simp [sellQty, List.filter_cons, h]
    rw [List.map_cons, List.sum_cons, hrest, hb, hs]
    rcases hdir t (List.mem_cons_self t rest) with h | h
    · rw [h]
      have hns : ¬ ("BUY" : String) = "SELL" := buy_ne_sell
      rw [if_pos rfl, if_pos rfl, if_neg hns]
      ring
    · rw [h]
      have hnb : ¬ ("SELL" : String) = "BUY" := fun he => buy_ne_sell he.symm
      rw [if_neg hnb, if_neg hnb, if_pos rfl]
      ring

/-! ## Claim theorems -/

theorem length_filter_flag (l : List DepthEntry) :
    (l.filter (fun e => e.flag = 0)).length +
      (l.filter (fun e => ¬ e.flag = 0)).length = l.length := by
  have h := @List.length_eq_length_filter_add DepthEntry l
    (fun e => decide (e.flag = 0))
  simp only [decide_not] at h ⊢
  omega

/-- C1 (amended): for every SnapQuote frame of length at least 347 that
decodes successfully, the four depth lists are exactly the price/qty
projections, in frame arrival order, of the bid-flagged (flag = 0)
respectively ask-flagged depth records of bytes 147..347; the two sides
together hold all 10 records, so each side holds at most 5 exactly when
at most 5 of the 10 records carry its flag (as in well-formed frames —
a frame may flag more than 5 records per side, see the counterexample);
and the first element of each side is the price of the earliest record
with that side's flag (the venue's best level). -/
theorem snapquote_depth_arrival_order (data : List Nat) (t : SnapTick)
    (hlen : 347 ≤ data.length)
    (hp : NiftyOptionChain.parse_snapquote_packet data = some t) :
    t.best_bids =
      ((depthEntries (pySlice data 147 347)).filter (fun e => e.flag = 0)).map
        DepthEntry.price ∧
    t.best_asks =
      ((depthEntries (pySlice data 147 347)).filter (fun e => ¬ e.flag = 0)).map
        DepthEntry.price ∧
    t.bid_qty =
      ((depthEntries (pySlice data 147 347)).filter (fun e => e.flag = 0)).map
        DepthEntry.qty ∧
    t.ask_qty =
      ((depthEntries (pySlice data 147 347)).filter (fun e => ¬ e.flag = 0)).map
        DepthEntry.qty ∧
    t.best_bids.length + t.best_asks.length = 10 ∧
    (((depthEntries (pySlice data 147 347)).filter (fun e => e.flag = 0)).length ≤ 5 →
      t.best_bids.length ≤ 5) ∧
    (((depthEntries (pySlice data 147 347)).filter (fun e => ¬ e.flag = 0)).length ≤ 5 →
      t.best_asks.length ≤ 5) ∧
    t.best_bids.head? =
      (((depthEntries (pySlice data 147 347)).filter (fun e => e.flag = 0)).head?).map
        DepthEntry.price ∧
    t.best_asks.head? =
      (((depthEntries (pySlice data 147 347)).filter (fun e => ¬ e.flag = 0)).head?).map
        DepthEntry.price := by
  have hslice : (pySlice data 147 347).length = 200 := by
    simp only [pySlice, List.length_take, List.length_drop]
    omega
  unfold NiftyOptionChain.parse_snapquote_packet at hp
  rw [if_neg (by omega)] at hp
  cases hdt : decodeToken data with
  | none =>
    rw [hdt] at hp
    exact absurd hp (by simp)
  | some tok =>
    rw [hdt] at hp
    dsimp only at hp
    rw [if_pos hlen, parse_best_5_data_eq_splitDepth] at hp
    rcases Option.some.inj hp with rfl
    dsimp only
    rw [splitDepth_bids, splitDepth_asks, splitDepth_bid_qty, splitDepth_ask_qty]
    refine ⟨rfl, rfl, rfl, rfl, ?_, ?_, ?_, ?_, ?_⟩
    · rw [List.length_map, List.length_map, length_filter_flag,
        depthEntries_length _ hslice]
    · intro h
      rw [List.length_map]
      exact h
    · intro h
      rw [List.length_map]
      exact h
    · exact List.head?_map _ _
    · exact List.head?_map _ _

/-- A 347-byte frame whose depth block carries five bid-flagged records
(all-zero) followed by five ask-flagged ones (flag bytes `01 00`). -/
def c1Frame : List Nat :=
  List.replicate 247 0 ++ (List.replicate 5 ((1 : Nat) :: List.replicate 19 0)).flatten

/-- The tick `c1Frame` decodes to. -/
def c1Tick : SnapTick :=
  (NiftyOptionChain.parse_snapquote_packet c1Frame).getD
    ⟨"", 0, 0, 0, 0, 0, 0, 0, 0, 0, 0, 0, [], [], [], []⟩

/-- Witness for C1 (amended) at `c1Frame`: five records per side. -/
theorem snapquote_depth_arrival_order_witness :
    (c1Tick.best_bids =
      ((depthEntries (pySlice c1Frame 147 347)).filter (fun e => e.flag = 0)).map
        DepthEntry.price) ∧
    c1Tick.best_bids.length + c1Tick.best_asks.length = 10 ∧
    c1Tick.best_bids.length = 5 ∧ c1Tick.best_asks.length = 5 :=
  ⟨(snapquote_depth_arrival_order c1Frame c1Tick (by decide) rfl).1,
    (snapquote_depth_arrival_order c1Frame c1Tick (by decide) rfl).2.2.2.2.1,
    by decide, by decide⟩

/-- C1 counterexample: the all-zero 347-byte frame decodes successfully
and every one of its 10 depth records carries the bid flag (flag = 0),
so the decoded bid side has 10 entries — more than 5. -/
theorem snapquote_depth_counterexample :
    347 ≤ (List.replicate 347 (0 : Nat)).length ∧
    (NiftyOptionChain.parse_snapquote_packet (List.replicate 347 0)).map
        (fun t => t.best_bids.length) = some 10 ∧
    ¬ (10 ≤ 5) := by
  refine ⟨by decide, by decide, by decide⟩

/-- The three-tick scenario of the spec: two buys and one sell within
one minute. -/
def c3ScenarioTicks : List EngineTick :=
  [⟨"BUY", 150, 26100.5, "09:15:00.100"⟩, ⟨"BUY", 75, 26101, "09:15:20.000"⟩,
   ⟨"SELL", 225, 26099, "09:15:40.000"⟩]

/-- C3: after processing any tick sequence with directions in
BUY/SELL from the reset state, the CVD equals the sum of BUY quantities
minus the sum of SELL quantities, independent of prices and timestamps;
in particular the spec scenario yields CVD 0 and a current candle with
buy volume 225, sell volume 225 and delta 0. -/
theorem cvd_signed_sum (ticks : List EngineTick) (st' : EngineState)
    (hdir : ∀ t ∈ ticks, t.direction = "BUY" ∨ t.direction = "SELL")
    (h : processList ticks reset_engine = some st') :
    st'.cvd = buyQty ticks - sellQty ticks ∧
    ((processList c3ScenarioTicks reset_engine).map (fun s => s.cvd) = some 0 ∧
      (processList c3ScenarioTicks reset_engine).map
          (fun s => (get_current_state s).current_candle.map
            (fun c => (c.buy_vol, c.sell_vol, c.delta))) = some (some (225, 225, 0))) := by
  refine ⟨?_, by decide, by decide⟩
  have h1 := processList_cvd h
  rw [signed_sum_eq ticks hdir] at h1
  simpa [reset_engine] using h1

/-- State after the spec scenario, used by the C3 witness. -/
def c3WitnessState : EngineState :=
  (processList c3ScenarioTicks reset_engine).getD reset_engine

/-- Witness for C3 at the spec scenario. -/
theorem cvd_signed_sum_witness :
    c3WitnessState.cvd = buyQty c3ScenarioTicks - sellQty c3ScenarioTicks :=
  (cvd_signed_sum c3ScenarioTicks c3WitnessState (by decide) rfl).1

/-- C9: in every reachable engine state, the reported imbalance ratio is
total buy volume over total sell volume when sell volume is positive and
0 when sell volume is zero; the query is total (never raises). -/
theorem imbalance_ratio_spec (ticks : List EngineTick) (st' : EngineState)
    (_hreach : processList ticks reset_engine = some st') :
    (0 < st'.total_sell_volume →
      EngineView.imbalance_ratio (get_current_state st') =
        (st'.total_buy_volume : Rat) / (st'.total_sell_volume : Rat)) ∧
    (st'.total_sell_volume = 0 →
      EngineView.imbalance_ratio (get_current_state st') = 0) := by
  constructor
  · intro hpos
    unfold get_current_state
    dsimp only
    rw [if_pos hpos]
  · intro hz
    unfold get_current_state
    dsimp only
    rw [if_neg (by omega)]

/-- Reachable state with positive sell volume (C9 witness). -/
def c9SellState : EngineState :=
  (processList [⟨"SELL", 3, 100, "09:15:00.000"⟩] reset_engine).getD reset_engine

/-- Reachable state with zero sell volume (C9 witness). -/
def c9BuyState : EngineState :=
  (processList [⟨"BUY", 5, 100, "09:15:00.000"⟩] reset_engine).getD reset_engine

/-- Witness for C9 on both branches. -/
theorem imbalance_ratio_spec_witness :
    EngineView.imbalance_ratio (get_current_state c9SellState) =
      (c9SellState.total_buy_volume : Rat) / (c9SellState.total_sell_volume : Rat) ∧
    EngineView.imbalance_ratio (get_current_state c9BuyState) = 0 :=
  ⟨(imbalance_ratio_spec [⟨"SELL", 3, 100, "09:15:00.000"⟩] c9SellState rfl).1 (by decide),
    (imbalance_ratio_spec [⟨"BUY", 5, 100, "09:15:00.000"⟩] c9BuyState rfl).2 (by decide)⟩

theorem take_lex_lt {l₁ l₂ : List Char} (n : Nat) (h : l₁.take n < l₂.take n) :
    l₁ < l₂ := by
  induction n generalizing l₁ l₂ with
  | zero =>
    rw [List.take_zero, List.take_zero] at h
    cases h
  | succ n ih =>
    cases l₁ with
    | nil =>
      cases l₂ with
      | nil => cases h
      | cons b bs => exact List.Lex.nil
    | cons a as =>
      cases l₂ with
      | nil =>
        rw [List.take_nil] at h
        cases h
      | cons b bs =>
        rw [List.take_succ_cons, List.take_succ_cons] at h
        cases h with
        | cons h2 => exact List.Lex.cons (ih h2)
        | rel hr => exact List.Lex.rel hr

theorem take_lex_le {l₁ l₂ : List Char} (n : Nat) (h : l₁ ≤ l₂) :
    l₁.take n ≤ l₂.take n :=
  le_of_not_lt (fun hlt => absurd (take_lex_lt n hlt) (not_lt_of_le h))

/-- `timestamp[:5]` is monotone in the timestamp: lexicographically
non-decreasing timestamps give non-decreasing minute keys. -/
theorem minuteKey_mono {s t : String} (h : s ≤ t) : minuteKey s ≤ minuteKey t := by
  rw [String.le_iff_toList_le] at h ⊢
  exact take_lex_le 5 h

/-- C4: process a tick list `pre ++ t :: post` from reset, the
timestamps in non-decreasing order (so minute keys never decrease),
where `pre` is nonempty and `t` opens a new minute key different from
the key `k` of the last tick of `pre`.  Then the candle finalized at `k`
when `t` arrived is never modified again: the final engine state holds
exactly the candle (all fields: open, high, low, close, buy volume,
sell volume, delta, cvd, tick count) that the state after `pre` held at
`k`, and that candle exists. -/
theorem candle_finalized_immutable (pre post : List EngineTick) (t : EngineTick)
    (hpre : pre ≠ []) (s sf : EngineState)
    (hts : List.Sorted (fun a b : String => a ≤ b)
      ((pre ++ t :: post).map EngineTick.timestamp))
    (hnew : minuteKey t.timestamp ≠ minuteKey (pre.getLast hpre).timestamp)
    (hs : processList pre reset_engine = some s)
    (hsf : processList (pre ++ t :: post) reset_engine = some sf) :
    sf.candle_data (minuteKey (pre.getLast hpre).timestamp) =
      s.candle_data (minuteKey (pre.getLast hpre).timestamp) ∧
    (s.candle_data (minuteKey (pre.getLast hpre).timestamp)).isSome := by
  have hsorted : List.Sorted (fun a b : String => a ≤ b)
      ((pre ++ t :: post).map (fun u => minuteKey u.timestamp)) := by
    have hmm : (pre ++ t :: post).map (fun u => minuteKey u.timestamp) =
        ((pre ++ t :: post).map EngineTick.timestamp).map minuteKey := by
      rw [List.map_map]
      rfl
    rw [hmm]
    exact List.Pairwise.map _ (fun a b hab => minuteKey_mono hab) hts
  obtain ⟨mid, hmid, hrest⟩ := processList_append.mp hsf
  have hms : mid = s := by
    rw [hs] at hmid
    exact (Option.some.inj hmid).symm
  subst hms
  set k := minuteKey (pre.getLast hpre).timestamp with hk
  refine ⟨?_, processList_getLast_candle hs hpre⟩
  apply processList_candle_apart hrest
  intro u hu
  rw [List.map_append, List.map_cons] at hsorted
  have hpw := List.pairwise_append.mp hsorted
  have hkmem : k ∈ pre.map (fun u => minuteKey u.timestamp) :=
    List.mem_map_of_mem _ (List.getLast_mem hpre)
  rcases List.mem_cons.mp hu with rfl | hu2
  · exact hnew
  · have h1 : k ≤ minuteKey t.timestamp :=
      hpw.2.2 k hkmem (minuteKey t.timestamp) (List.mem_cons_self _ _)
    have hkt : k < minuteKey t.timestamp := lt_of_le_of_ne h1 (Ne.symm hnew)
    have h2 : minuteKey t.timestamp ≤ minuteKey u.timestamp :=
      (List.pairwise_cons.mp hpw.2.1).1 _ (List.mem_map_of_mem _ hu2)
    intro he
    apply absurd (lt_of_lt_of_le hkt h2)
    rw [he]
    exact lt_irrefl k

/-- C4 witness data: one tick at 09:15, then two at 09:16. -/
def c4Pre : List EngineTick := [⟨"BUY", 10, 100, "09:15:00.000"⟩]

def c4T : EngineTick := ⟨"SELL", 5, 101, "09:16:00.000"⟩

def c4Post : List EngineTick := [⟨"BUY", 7, 102, "09:16:30.000"⟩]

def c4Mid : EngineState := (processList c4Pre reset_engine).getD reset_engine

def c4Fin : EngineState :=
  (processList (c4Pre ++ c4T :: c4Post) reset_engine).getD reset_engine

/-- Witness for C4 at the concrete three-tick run. -/
theorem candle_finalized_immutable_witness :
    c4Fin.candle_data (minuteKey (c4Pre.getLast (by decide)).timestamp) =
      c4Mid.candle_data (minuteKey (c4Pre.getLast (by decide)).timestamp) ∧
    (c4Mid.candle_data (minuteKey (c4Pre.getLast (by decide)).timestamp)).isSome :=
  candle_finalized_immutable c4Pre c4Post c4T (by decide) c4Mid c4Fin
    (by
      have hmap : (c4Pre ++ c4T :: c4Post).map EngineTick.timestamp =
          ["09:15:00.000", "09:16:00.000", "09:16:30.000"] := rfl
      rw [hmap]
      have h12 : ("09:15:00.000" : String) ≤ "09:16:00.000" := by
        rw [String.le_iff_toList_le]
        decide
      have h13 : ("09:15:00.000" : String) ≤ "09:16:30.000" := by
        rw [String.le_iff_toList_le]
        decide
      have h23 : ("09:16:00.000" : String) ≤ "09:16:30.000" := by
        rw [String.le_iff_toList_le]
        decide
      refine List.Pairwise.cons (fun b hb => ?_)
        (List.Pairwise.cons (fun b hb => ?_) (List.Pairwise.cons (fun b hb => ?_)
          List.Pairwise.nil))
      · rcases List.mem_cons.mp hb with rfl | hb2
        · exact h12
        · rcases List.mem_cons.mp hb2 with rfl | hb3
          · exact h13
          · exact absurd hb3 (List.not_mem_nil b)
      · rcases List.mem_cons.mp hb with rfl | hb2
        · exact h23
        · exact absurd hb2 (List.not_mem_nil b)
      · exact absurd hb (List.not_mem_nil b))
    (by decide) rfl rfl

/-- C2: for every LTP frame of length at least 51 whose instrument-id
bytes 2..27 decode as text, `parse_ltp_packet` returns a tick whose
price is exactly the signed 64-bit little-endian integer at bytes 43..51
divided by 100. -/
theorem ltp_price_exact (data : List Nat) (hlen : 51 ≤ data.length)
    (hdec : (utf8Decode (pySlice data 2 27)).isSome) :
    ∃ t, NiftyOptionChain.parse_ltp_packet data = some t ∧
      t.ltp = (sint64le (pySlice data 43 51) : Rat) / 100 := by
  obtain ⟨cs, hcs⟩ := Option.isSome_iff_exists.mp hdec
  unfold NiftyOptionChain.parse_ltp_packet decodeToken
  rw [if_neg (by omega), hcs]
  exact ⟨_, rfl, rfl⟩

/-- Witness for C2 at the all-zero frame of length 51. -/
theorem ltp_price_exact_witness :
    51 ≤ (List.replicate 51 0).length ∧
      (utf8Decode (pySlice (List.replicate 51 0) 2 27)).isSome ∧
      ∃ t, NiftyOptionChain.parse_ltp_packet (List.replicate 51 0) = some t ∧
        t.ltp = (sint64le (pySlice (List.replicate 51 0) 43 51) : Rat) / 100 :=
  ⟨by decide, by decide, ltp_price_exact (List.replicate 51 0) (by decide) (by decide)⟩

/-- C5: the decoders return the failure value on every structural
violation instead of raising: an LTP frame shorter than 51 bytes (in
particular one of length 40), an undecodable instrument id, or a
SnapQuote frame shorter than 155 bytes all yield `none`, never a
partially populated tick.  (Both embedded decoders are total Lean
functions into `Option`, which is the no-exception contract.) -/
theorem decode_never_raises (data : List Nat) :
    (data.length < 51 → NiftyOptionChain.parse_ltp_packet data = none) ∧
    (utf8Decode (pySlice data 2 27) = none →
      NiftyOptionChain.parse_ltp_packet data = none) ∧
    (data.length < 155 → NiftyOptionChain.parse_snapquote_packet data = none) ∧
    (utf8Decode (pySlice data 2 27) = none →
      NiftyOptionChain.parse_snapquote_packet data = none) ∧
    (data.length = 40 → NiftyOptionChain.parse_ltp_packet data = none) := by
  refine ⟨fun h => ?_, fun h => ?_, fun h => ?_, fun h => ?_, fun h => ?_⟩
  · unfold NiftyOptionChain.parse_ltp_packet
    rw [if_pos h]
  · unfold NiftyOptionChain.parse_ltp_packet decodeToken
    by_cases hl : data.length < 51
    · rw [if_pos hl]
    · rw [if_neg hl, h]
      rfl
  · unfold NiftyOptionChain.parse_snapquote_packet
    rw [if_pos h]
  · unfold NiftyOptionChain.parse_snapquote_packet decodeToken
    by_cases hl : data.length < 155
    · rw [if_pos hl]
    · rw [if_neg hl, h]
      rfl
  · unfold NiftyOptionChain.parse_ltp_packet
    rw [if_pos (by omega)]

/-- Witness for C5 at a frame of length 40. -/
theorem decode_never_raises_witness :
    (List.replicate 40 7).length = 40 ∧
      NiftyOptionChain.parse_ltp_packet (List.replicate 40 7) = none :=
  ⟨by decide, (decode_never_raises (List.replicate 40 7)).2.2.2.2 (by decide)⟩

theorem parse_best_5_go_agree (d : List Nat) (idx : List Nat) :
    DataServer.parse_best_5_go d idx = NiftyOptionChain.parse_best_5_go d idx := by
  induction idx with
  | nil => rfl
  | cons i is ih =>
    unfold DataServer.parse_best_5_go NiftyOptionChain.parse_best_5_go
    by_cases hlen : i * 20 + 20 > d.length
    · simp [hlen]
    · simp [hlen, ih]

theorem parse_best_5_data_agree :
    DataServer.parse_best_5_data = NiftyOptionChain.parse_best_5_data :=
  funext fun d => parse_best_5_go_agree d (List.range 10)

/-- C10: the data-server SnapQuote decoder and the option-chain
SnapQuote decoder return equal results on every input byte buffer. -/
theorem snapquote_decoders_agree (data : List Nat) :
    DataServer.parse_full_snapquote data =
      NiftyOptionChain.parse_snapquote_packet data := by
  unfold DataServer.parse_full_snapquote NiftyOptionChain.parse_snapquote_packet
  rw [parse_best_5_data_agree]

/-- C6 counterexample: with a present best ask of 0 (`best_asks = [0]`),
`lastPrice = 1 ≥ 0 = bestAsk`, no bids and no known previous price, the
claim's rule 1 demands BUY, but the code requires `best_ask > 0` and
falls through to the carried-forward direction SELL. -/
theorem classifier_rule1_counterexample :
    ([(0 : Rat)] ≠ ([] : List Rat)) ∧
    ([(0 : Rat)].headD 0 ≤ 1) ∧
    classify_trade_direction 1 [] [0] 0 "SELL" = "SELL" ∧
    ("SELL" : String) ≠ "BUY" := by
  refine ⟨by decide, by decide, by decide, by decide⟩

/-- C6 (amended): the classifier applies its rules in priority order,
where a best ask/bid counts only when positive (the code treats a
nonpositive level as absent) and the previous price only when positive:
rule 1 BUY, rule 2 SELL, rule 3 tick rule, else carry the previous
direction. -/
theorem classifier_priority_rules (ltp prev_ltp : Rat)
    (best_bids best_asks : List Rat) (last_direction : String) :
    (0 < best_asks.headD 0 → best_asks.headD 0 ≤ ltp →
      classify_trade_direction ltp best_bids best_asks prev_ltp last_direction = "BUY") ∧
    (¬ (0 < best_asks.headD 0 ∧ best_asks.headD 0 ≤ ltp) →
      0 < best_bids.headD 0 → ltp ≤ best_bids.headD 0 →
      classify_trade_direction ltp best_bids best_asks prev_ltp last_direction = "SELL") ∧
    (¬ (0 < best_asks.headD 0 ∧ best_asks.headD 0 ≤ ltp) →
      ¬ (0 < best_bids.headD 0 ∧ ltp ≤ best_bids.headD 0) →
      0 < prev_ltp → prev_ltp < ltp →
      classify_trade_direction ltp best_bids best_asks prev_ltp last_direction = "BUY") ∧
    (¬ (0 < best_asks.headD 0 ∧ best_asks.headD 0 ≤ ltp) →
      ¬ (0 < best_bids.headD 0 ∧ ltp ≤ best_bids.headD 0) →
      0 < prev_ltp → ltp < prev_ltp →
      classify_trade_direction ltp best_bids best_asks prev_ltp last_direction = "SELL") ∧
    (¬ (0 < best_asks.headD 0 ∧ best_asks.headD 0 ≤ ltp) →
      ¬ (0 < best_bids.headD 0 ∧ ltp ≤ best_bids.headD 0) →
      (prev_ltp ≤ 0 ∨ ltp = prev_ltp) →
      classify_trade_direction ltp best_bids best_asks prev_ltp last_direction =
        last_direction) := by
  unfold classify_trade_direction
  refine ⟨fun h1 h2 => ?_, fun hn1 h1 h2 => ?_, fun hn1 hn2 h1 h2 => ?_,
    fun hn1 hn2 h1 h2 => ?_, fun hn1 hn2 hc => ?_⟩
  · rw [if_pos ⟨h1, h2⟩]
  · rw [if_neg hn1, if_pos ⟨h1, h2⟩]
  · rw [if_neg hn1, if_neg hn2, if_pos h1, if_pos h2]
  · rw [if_neg hn1, if_neg hn2, if_pos h1, if_neg (by push_neg; exact le_of_lt h2),
      if_pos h2]
  · rcases hc with hc | hc
    · rw [if_neg hn1, if_neg hn2, if_neg (by push_neg; exact hc)]
    · by_cases hp : 0 < prev_ltp
      · rw [if_neg hn1, if_neg hn2, if_pos hp, if_neg (by rw [hc]; exact lt_irrefl _),
          if_neg (by rw [hc]; exact lt_irrefl _)]
      · rw [if_neg hn1, if_neg hn2, if_neg hp]

/-- Witness for C6 (amended), including the spec scenario: best bids
[100, 99], best asks [102, 103], last price 102, previous price 101
classifies as BUY by rule 1. -/
theorem classifier_priority_rules_witness :
    classify_trade_direction 102 [100, 99] [102, 103] 101 "SELL" = "BUY" ∧
    classify_trade_direction 99 [100, 99] [102, 103] 101 "SELL" = "SELL" ∧
    classify_trade_direction 101 [] [] 100 "SELL" = "BUY" ∧
    classify_trade_direction 100 [] [] 101 "BUY" = "SELL" ∧
    classify_trade_direction 101 [] [] 0 "SELL" = "SELL" :=
  ⟨(classifier_priority_rules 102 101 [100, 99] [102, 103] "SELL").1
      (by decide) (by decide),
    (classifier_priority_rules 99 101 [100, 99] [102, 103] "SELL").2.1
      (by decide) (by decide) (by decide),
    (classifier_priority_rules 101 100 [] [] "SELL").2.2.1
      (by decide) (by decide) (by decide) (by decide),
    (classifier_priority_rules 100 101 [] [] "BUY").2.2.2.1
      (by decide) (by decide) (by decide) (by decide),
    (classifier_priority_rules 101 0 [] [] "SELL").2.2.2.2
      (by decide) (by decide) (Or.inl (by decide))⟩

/-- C7: with a qualifying quantity and a dedup key not yet recorded, the
big-block detector fires on the first invocation, records the key, stays
silent on the second invocation with the same (direction, rounded price)
key, and stays silent on any invocation whose key is in the dedup deque
(capacity 100, FIFO) — i.e. until eviction; the deque never grows past
100 entries. -/
theorem big_block_dedup (q q2 : Int) (dir : String) (price : Rat)
    (recent : List String)
    (hq : BIG_BLOCK_THRESHOLD ≤ q) (_hq2 : BIG_BLOCK_THRESHOLD ≤ q2)
    (hnot : big_block_key dir price ∉ recent) :
    (detect_big_block q dir price recent).1.isSome ∧
    big_block_key dir price ∈ (detect_big_block q dir price recent).2 ∧
    (detect_big_block q2 dir price (detect_big_block q dir price recent).2).1 = none ∧
    (∀ (q3 : Int) (r : List String), big_block_key dir price ∈ r →
      (detect_big_block q3 dir price r).1 = none) ∧
    (recent.length ≤ 100 → (detect_big_block q dir price recent).2.length ≤ 100) := by
  have hmem : big_block_key dir price ∈ dequeAppend recent (big_block_key dir price) := by
    unfold dequeAppend
    exact List.mem_append_right _ (List.mem_singleton.mpr rfl)
  have hsilent : ∀ (q3 : Int) (r : List String), big_block_key dir price ∈ r →
      (detect_big_block q3 dir price r).1 = none := by
    intro q3 r hr
    unfold detect_big_block
    by_cases h3 : BIG_BLOCK_THRESHOLD ≤ q3
    · rw [if_pos h3]
      dsimp only
      rw [if_pos hr]
    · rw [if_neg h3]
  unfold detect_big_block
  rw [if_pos hq]
  dsimp only
  rw [if_neg hnot]
  refine ⟨rfl, hmem, ?_, hsilent, ?_⟩
  · have := hsilent q2 (dequeAppend recent (big_block_key dir price)) hmem
    unfold detect_big_block at this
    exact this
  · intro hlen
    unfold dequeAppend
    by_cases h100 : recent.length = 100
    · rw [if_pos h100]
      simp only [List.length_append, List.length_drop, List.length_singleton, h100]
      omega
    · rw [if_neg h100]
      simp only [List.length_append, List.length_singleton]
      omega

/-- Witness for C7 at quantity 4000, direction BUY, price 26100.5,
empty dedup deque. -/
theorem big_block_dedup_witness :
    (detect_big_block 4000 "BUY" 26100.5 []).1.isSome ∧
    (detect_big_block 4000 "BUY" 26100.5
        (detect_big_block 4000 "BUY" 26100.5 []).2).1 = none :=
  ⟨(big_block_dedup 4000 4000 "BUY" 26100.5 [] (by decide) (by decide) (by decide)).1,
    (big_block_dedup 4000 4000 "BUY" 26100.5 [] (by decide) (by decide)
      (by decide)).2.2.1⟩

theorem fdiv_lots_ge_100 {q : Int} (h : 3750 ≤ q) :
    100 ≤ Int.fdiv q 75 ↔ 7500 ≤ q := by
  rw [Int.fdiv_eq_ediv _ (by norm_num)]
  omega

/-- C8: below the threshold 3750 (= 50 lots of 75) the detector returns
no alert; from 3750 up to (excluding) 7500 (= 100 lot-equivalents) it
returns a BIG_BLOCK alert of severity WARNING; from 7500 up it returns
severity CRITICAL — in both cases provided the dedup key is absent. -/
theorem big_block_thresholds (q : Int) (dir : String) (price : Rat)
    (recent : List String) :
    (q < BIG_BLOCK_THRESHOLD → (detect_big_block q dir price recent).1 = none) ∧
    (BIG_BLOCK_THRESHOLD ≤ q → q < 7500 → big_block_key dir price ∉ recent →
      (detect_big_block q dir price recent).1.map
          (fun a => (a.alert_type, a.severity)) = some ("BIG_BLOCK", "WARNING")) ∧
    (7500 ≤ q → big_block_key dir price ∉ recent →
      (detect_big_block q dir price recent).1.map
          (fun a => (a.alert_type, a.severity)) = some ("BIG_BLOCK", "CRITICAL")) := by
  have hthr : BIG_BLOCK_THRESHOLD = 3750 := by decide
  refine ⟨fun h => ?_, fun h1 h2 h3 => ?_, fun h1 h2 => ?_⟩
  · unfold detect_big_block
    rw [if_neg (not_le.mpr h)]
  · unfold detect_big_block
    rw [if_pos h1]
    dsimp only
    rw [if_neg h3]
    have hlots : ¬ 100 ≤ Int.fdiv q NIFTY_LOT_SIZE := by
      rw [show NIFTY_LOT_SIZE = (75 : Int) from rfl,
        fdiv_lots_ge_100 (by omega)]
      omega
    rw [if_neg hlots]
    rfl
  · unfold detect_big_block
    rw [if_pos (by omega)]
    dsimp only
    rw [if_neg h2]
    have hlots : 100 ≤ Int.fdiv q NIFTY_LOT_SIZE := by
      rw [show NIFTY_LOT_SIZE = (75 : Int) from rfl,
        fdiv_lots_ge_100 (by omega)]
      omega
    rw [if_pos hlots]
    rfl

/-- Witness for C8 at quantities 100, 4000 and 8000 with an empty dedup
deque. -/
theorem big_block_thresholds_witness :
    (detect_big_block 100 "BUY" 26100.5 []).1 = none ∧
    (detect_big_block 4000 "BUY" 26100.5 []).1.map
        (fun a => (a.alert_type, a.severity)) = some ("BIG_BLOCK", "WARNING") ∧
    (detect_big_block 8000 "SELL" 26100.5 []).1.map
        (fun a => (a.alert_type, a.severity)) = some ("BIG_BLOCK", "CRITICAL") :=
  ⟨(big_block_thresholds 100 "BUY" 26100.5 []).1 (by decide),
    (big_block_thresholds 4000 "BUY" 26100.5 []).2.1 (by decide) (by decide) (by decide),
    (big_block_thresholds 8000 "SELL" 26100.5 []).2.2 (by decide) (by decide)⟩

end MarketData
